import Mathlib

/-!
# Verification of the bankofmilo ledger core

Shallow embedding of the settlement/ledger core of `src/api/app.py`
(models `Account`, `Transaction`, `Loan`, `ATMRequest`, the helpers
`add_transaction` and `check_account_status`, the two background ticks
`process_monthly_fees` and `process_loan_payments`, and the mutating
HTTP handlers `atm_deposit`, `atm_withdraw`, `apply_for_loan`,
`admin_approve_loan`, `admin_deny_loan`, `admin_complete_atm_request`).

Conventions of the embedding:
* Python `float` money amounts are modelled as exact rationals (`ℚ`);
  the literals `0.5` and `1.0999` of the source are the rationals
  `1/2` and `10999/10000`.
* Python `date` values are modelled as integer day numbers (`ℤ`);
  `(d2 - d1).days` becomes `d2 - d1`.
* Database rows are Lean structures; the handlers are modelled from the
  point after the account row has been looked up (account-number/PIN
  lookup, JSON field validation and HTTP serialization are glue outside
  the ledger core).  Free-text descriptions and wall-clock timestamps
  carry no ledger content and are dropped from the records.
* Fallible handlers return `Except ApiError`.
-/

namespace BankOfMilo

/-- `Account.status` values: `active`, `on_hold`, `closed`. -/
inductive AccountStatus
  | active
  | on_hold
  | closed
deriving DecidableEq, Repr

/-- `Transaction.transaction_type` values. -/
inductive TransactionType
  | deposit
  | withdrawal
  | fee
  | loan_payment
  | loan_disbursement
deriving DecidableEq, Repr

/-- One row of the `Transaction` table: signed amount and the account
balance immediately after the transaction was applied. -/
structure Transaction where
  transaction_type : TransactionType
  amount : ℚ
  balance_after : ℚ
deriving DecidableEq, Repr

/-- The mutable ledger state of one `Account` row, together with its
(ordered, append-only) transaction history.  `last_fee_date` is an
`Option` because the source guards on `if account.last_fee_date:`. -/
structure Account where
  balance : ℚ
  status : AccountStatus
  last_fee_date : Option ℤ
  history : List Transaction
deriving DecidableEq, Repr

/-- `Loan.status` values. -/
inductive LoanStatus
  | pending
  | approved
  | denied
  | completed
deriving DecidableEq, Repr

/-- One row of the `Loan` table. -/
structure Loan where
  amount : ℚ
  preferred_date1 : ℤ
  preferred_date2 : ℤ
  status : LoanStatus
  approved_date1 : Option ℤ
  approved_date2 : Option ℤ
  first_payment_done : Bool
  second_payment_done : Bool
deriving DecidableEq, Repr

/-- `ATMRequest.request_type` values. -/
inductive ATMRequestType
  | deposit
  | withdrawal
deriving DecidableEq, Repr

/-- `ATMRequest.status` values. -/
inductive ATMRequestStatus
  | pending
  | completed
deriving DecidableEq, Repr

/-- One row of the `ATMRequest` (teller request) table. -/
structure ATMRequest where
  request_type : ATMRequestType
  amount : ℚ
  status : ATMRequestStatus
deriving DecidableEq, Repr

/-- The error taxonomy surfaced by the mutating handlers. -/
inductive ApiError
  | account_not_active
  | invalid_amount
  | insufficient_funds
  | invalid_state
deriving DecidableEq, Repr

/-- `add_transaction(account_id, transaction_type, amount, ...)`:
appends a `Transaction` row whose `balance_after` is the account's
current (already updated) balance. -/
def add_transaction (a : Account) (t : TransactionType) (amount : ℚ) : Account :=
  { a with history := a.history ++ [⟨t, amount, a.balance⟩] }

/-- `check_account_status(account)`: `active` with negative balance
becomes `on_hold`; `on_hold` with non-negative balance becomes
`active`; anything else (in particular `closed`) is untouched. -/
def check_account_status (a : Account) : Account :=
  if a.balance < 0 ∧ a.status = .active then { a with status := .on_hold }
  else if 0 ≤ a.balance ∧ a.status = .on_hold then { a with status := .active }
  else a

/-- The fixed monthly maintenance fee (`5.0` in the source). -/
def monthly_fee : ℚ := 5

/-- The body of the `process_monthly_fees` loop for a single account.
The source's query `Account.query.filter_by(status='active')` restricts
the scan to accounts whose status is `active`; the per-account body
charges the fee when at least 30 days have elapsed since
`last_fee_date`, advances `last_fee_date` to the current date, records
a `fee` transaction and reconciles the status. -/
def process_account_fee (current_date : ℤ) (a : Account) : Account :=
  if a.status = .active then
    match a.last_fee_date with
    | none => a
    | some lfd =>
      if (30 : ℤ) ≤ current_date - lfd then
        check_account_status
          (add_transaction
            { a with balance := a.balance - monthly_fee, last_fee_date := some current_date }
            .fee (-monthly_fee))
      else a
  else a

/-- One tick of `process_monthly_fees` over the list of `active`
accounts returned by the query.  The `Bool` paired with each account
models a transient store error raised while processing that account;
the source's `try/except` wraps the whole `for` loop, so the first
error aborts the loop and the remaining accounts of this tick are left
unprocessed (changes to earlier accounts are already committed by
`add_transaction`). -/
def process_monthly_fees (current_date : ℤ) :
    List (Account × Bool) → List Account
  | [] => []
  | (a, raises) :: rest =>
      if raises then a :: rest.map Prod.fst
      else process_account_fee current_date a :: process_monthly_fees current_date rest

/-- First half of the `process_loan_payments` body for one approved
loan: on or after `approved_date1`, if the first payment is not done
and the balance covers 50% of the loan amount, deduct it, set
`first_payment_done`, record a `loan_payment` transaction and reconcile
status; otherwise leave loan and account unchanged. -/
def process_loan_first_payment (current_date : ℤ) (l : Loan) (a : Account) :
    Loan × Account :=
  match l.approved_date1 with
  | none => (l, a)
  | some d1 =>
    if d1 ≤ current_date ∧ l.first_payment_done = false then
      -- payment_amount = loan.amount * 0.5
      if l.amount * (1 / 2) ≤ a.balance then
        ({ l with first_payment_done := true },
         check_account_status
           (add_transaction { a with balance := a.balance - l.amount * (1 / 2) }
             .loan_payment (-(l.amount * (1 / 2)))))
      else (l, a)
    else (l, a)

/-- Second half of the `process_loan_payments` body for one approved
loan: on or after `approved_date2`, if the second payment is not done,
the first payment IS done, and the balance covers 100%+9.99% of the
loan amount, deduct it, set `second_payment_done`, set the loan status
to `completed`, record a `loan_payment` transaction and reconcile
status. -/
def process_loan_second_payment (current_date : ℤ) (l : Loan) (a : Account) :
    Loan × Account :=
  match l.approved_date2 with
  | none => (l, a)
  | some d2 =>
    if d2 ≤ current_date ∧ l.second_payment_done = false ∧ l.first_payment_done = true then
      -- payment_amount = loan.amount * 1.0999
      if l.amount * (10999 / 10000) ≤ a.balance then
        ({ l with second_payment_done := true, status := .completed },
         check_account_status
           (add_transaction { a with balance := a.balance - l.amount * (10999 / 10000) }
             .loan_payment (-(l.amount * (10999 / 10000)))))
      else (l, a)
    else (l, a)

/-- The full `process_loan_payments` body for one loan in one tick.
The query `Loan.query.filter_by(status='approved')` restricts the scan
to approved loans; within the iteration the first-payment block runs
before the second-payment block and the second block reads the
`first_payment_done` flag as just (possibly) updated by the first. -/
def process_loan (current_date : ℤ) (l : Loan) (a : Account) : Loan × Account :=
  if l.status = .approved then
    let s1 := process_loan_first_payment current_date l a
    process_loan_second_payment current_date s1.1 s1.2
  else (l, a)

/-- Handler `atm_deposit` (after account lookup): rejects non-positive
amounts, otherwise creates a `pending` deposit request.  The source has
no account-status check on this path. -/
def atm_deposit (a : Account) (amount : ℚ) : Except ApiError ATMRequest :=
  if amount ≤ 0 then .error .invalid_amount
  else
    -- the looked-up account row is read but not mutated
    let _ := a
    .ok { request_type := .deposit, amount := amount, status := .pending }

/-- Handler `atm_withdraw` (after account lookup): rejects accounts
whose status is not `active`, non-positive amounts and amounts
exceeding the balance; otherwise creates a `pending` withdrawal
request. -/
def atm_withdraw (a : Account) (amount : ℚ) : Except ApiError ATMRequest :=
  if a.status ≠ .active then .error .account_not_active
  else if amount ≤ 0 then .error .invalid_amount
  else if a.balance < amount then .error .insufficient_funds
  else .ok { request_type := .withdrawal, amount := amount, status := .pending }

/-- Handler `apply_for_loan` (after account lookup): rejects accounts
whose status is not `active`; otherwise creates a `pending` loan with
the borrower's preferred dates.  The source validates no amount. -/
def apply_for_loan (a : Account) (amount : ℚ) (p1 p2 : ℤ) : Except ApiError Loan :=
  if a.status ≠ .active then .error .account_not_active
  else .ok { amount := amount, preferred_date1 := p1, preferred_date2 := p2,
             status := .pending, approved_date1 := none, approved_date2 := none,
             first_payment_done := false, second_payment_done := false }

/-- Handler `admin_approve_loan`: rejects non-`pending` loans; sets the
approved dates (caller overrides or the preferred dates), marks the
loan `approved`, credits the full loan amount to the account balance
and records a `loan_disbursement` transaction.  The source calls no
`check_account_status` on this path. -/
def admin_approve_loan (d1 d2 : Option ℤ) (l : Loan) (a : Account) :
    Except ApiError (Loan × Account) :=
  if l.status ≠ .pending then .error .invalid_state
  else
    .ok ({ l with status := .approved,
                  approved_date1 := some (d1.getD l.preferred_date1),
                  approved_date2 := some (d2.getD l.preferred_date2) },
         add_transaction { a with balance := a.balance + l.amount }
           .loan_disbursement l.amount)

/-- Handler `admin_deny_loan`: rejects non-`pending` loans, otherwise
marks the loan `denied`. -/
def admin_deny_loan (l : Loan) : Except ApiError Loan :=
  if l.status ≠ .pending then .error .invalid_state
  else .ok { l with status := .denied }

/-- Handler `admin_complete_atm_request`: rejects non-`pending`
requests; applies the requested deposit (credit) or withdrawal (debit)
to the account balance with no sufficiency re-check, records the
transaction, marks the request `completed`, and reconciles the account
status. -/
def admin_complete_atm_request (req : ATMRequest) (a : Account) :
    Except ApiError (ATMRequest × Account) :=
  if req.status ≠ .pending then .error .invalid_state
  else
    match req.request_type with
    | .deposit =>
        .ok ({ req with status := .completed },
          check_account_status
            (add_transaction { a with balance := a.balance + req.amount }
              .deposit req.amount))
    | .withdrawal =>
        .ok ({ req with status := .completed },
          check_account_status
            (add_transaction { a with balance := a.balance - req.amount }
              .withdrawal (-req.amount)))

/-- A freshly opened account (`create_account`): balance `0`, status
`active`, `last_fee_date` defaulted to the creation date, no history. -/
def initAccount (creation_date : ℤ) : Account :=
  { balance := 0, status := .active, last_fee_date := some creation_date, history := [] }

/-! ## The ledger invariant (claim C1)

An account's balance is mutated by: teller-request completion
(`admin_complete_atm_request`), loan disbursement at approval
(`admin_approve_loan`), the fee tick (`process_account_fee`) and the
loan-payment tick (`process_loan`).  `AccOp` enumerates these
balance-mutating operations as they act on one account. -/

/-- One balance-mutating operation against a single account, with the
loan/request row it is driven by. -/
inductive AccOp
  | complete_request (req : ATMRequest)
  | fee_tick (current_date : ℤ)
  | approve_loan (d1 d2 : Option ℤ) (l : Loan)
  | loan_tick (current_date : ℤ) (l : Loan)

/-- The account-state effect of one `AccOp` (a failing handler leaves
the account unchanged). -/
def applyAccOp (a : Account) : AccOp → Account
  | .complete_request req =>
      match admin_complete_atm_request req a with
      | .ok ra => ra.2
      | .error _ => a
  | .fee_tick d => process_account_fee d a
  | .approve_loan d1 d2 l =>
      match admin_approve_loan d1 d2 l a with
      | .ok la => la.2
      | .error _ => a
  | .loan_tick d l => (process_loan d l a).2

/-- Sum of the signed amounts of a transaction list. -/
def sumAmounts (l : List Transaction) : ℚ :=
  (l.map Transaction.amount).sum

/-- `runningOk prev l` holds when each transaction's `balance_after`
equals the previous running balance plus its own amount. -/
def runningOk : ℚ → List Transaction → Bool
  | _, [] => true
  | prev, t :: rest =>
      decide (t.balance_after = prev + t.amount) && runningOk t.balance_after rest

/-- The ledger invariant of the spec: the balance is the sum of all
transaction amounts, and every `balance_after` is the running prefix
sum. -/
def ledgerInvariant (a : Account) : Prop :=
  a.balance = sumAmounts a.history ∧ runningOk 0 a.history = true

@[simp] theorem add_transaction_balance (a : Account) (t : TransactionType) (m : ℚ) :
    (add_transaction a t m).balance = a.balance := rfl

@[simp] theorem add_transaction_status (a : Account) (t : TransactionType) (m : ℚ) :
    (add_transaction a t m).status = a.status := rfl

@[simp] theorem add_transaction_last_fee_date (a : Account) (t : TransactionType) (m : ℚ) :
    (add_transaction a t m).last_fee_date = a.last_fee_date := rfl

@[simp] theorem add_transaction_history (a : Account) (t : TransactionType) (m : ℚ) :
    (add_transaction a t m).history = a.history ++ [⟨t, m, a.balance⟩] := rfl

@[simp] theorem check_account_status_balance (a : Account) :
    (check_account_status a).balance = a.balance := by
  unfold check_account_status
  split <;> try rfl
  split <;> rfl

@[simp] theorem check_account_status_history (a : Account) :
    (check_account_status a).history = a.history := by
  unfold check_account_status
  split <;> try rfl
  split <;> rfl

@[simp] theorem check_account_status_last_fee_date (a : Account) :
    (check_account_status a).last_fee_date = a.last_fee_date := by
  unfold check_account_status
  split <;> try rfl
  split <;> rfl

@[simp] theorem sumAmounts_nil : sumAmounts [] = 0 := rfl

@[simp] theorem sumAmounts_append (l₁ l₂ : List Transaction) :
    sumAmounts (l₁ ++ l₂) = sumAmounts l₁ + sumAmounts l₂ := by
  simp [sumAmounts]

@[simp] theorem sumAmounts_singleton (t : Transaction) :
    sumAmounts [t] = t.amount := by
  simp [sumAmounts]

theorem runningOk_snoc {l : List Transaction} {s : ℚ} {t : Transaction}
    (h : runningOk s l = true) (ht : t.balance_after = s + sumAmounts l + t.amount) :
    runningOk s (l ++ [t]) = true := by
  induction l generalizing s with
  | nil =>
      simp only [List.nil_append, runningOk, Bool.and_eq_true, decide_eq_true_eq]
      refine ⟨?_, trivial⟩
      rw [ht]; simp [sumAmounts]
  | cons x rest ih =>
      simp only [runningOk, Bool.and_eq_true, decide_eq_true_eq] at h
      obtain ⟨hx, hrest⟩ := h
      simp only [List.cons_append, runningOk, Bool.and_eq_true, decide_eq_true_eq]
      refine ⟨hx, ih hrest ?_⟩
      rw [ht, hx]
      simp [sumAmounts]
      ring

/-- The ledger invariant depends only on the balance and the history. -/
theorem ledgerInvariant_congr {a b : Account}
    (hb : b.balance = a.balance) (hh : b.history = a.history)
    (h : ledgerInvariant a) : ledgerInvariant b := by
  obtain ⟨h1, h2⟩ := h
  exact ⟨by rw [hb, hh, h1], by rw [hh]; exact h2⟩

/-- Shifting the balance by `δ` and recording a transaction of amount
`δ` preserves the ledger invariant. -/
theorem ledgerInvariant_shift (a : Account) (δ : ℚ) (t : TransactionType) {a' : Account}
    (hb : a'.balance = a.balance + δ) (hh : a'.history = a.history)
    (h : ledgerInvariant a) : ledgerInvariant (add_transaction a' t δ) := by
  obtain ⟨h1, h2⟩ := h
  constructor
  · simp [hb, hh, h1]
  · simp only [add_transaction_history, hh]
    exact runningOk_snoc h2 (by simp [hb, h1])

/-- `check_account_status` preserves the ledger invariant. -/
theorem ledgerInvariant_check_account_status {a : Account}
    (h : ledgerInvariant a) : ledgerInvariant (check_account_status a) :=
  ledgerInvariant_congr (check_account_status_balance a)
    (check_account_status_history a) h

/-- Unfolding `admin_complete_atm_request` on a pending deposit. -/
theorem admin_complete_atm_request_deposit {req : ATMRequest} (a : Account)
    (hp : req.status = .pending) (hr : req.request_type = .deposit) :
    admin_complete_atm_request req a =
      .ok ({ req with status := .completed },
        check_account_status
          (add_transaction { a with balance := a.balance + req.amount }
            .deposit req.amount)) := by
  obtain ⟨rt, amt, rs⟩ := req
  cases hp; cases hr
  simp [admin_complete_atm_request]

/-- Unfolding `admin_complete_atm_request` on a pending withdrawal. -/
theorem admin_complete_atm_request_withdrawal {req : ATMRequest} (a : Account)
    (hp : req.status = .pending) (hr : req.request_type = .withdrawal) :
    admin_complete_atm_request req a =
      .ok ({ req with status := .completed },
        check_account_status
          (add_transaction { a with balance := a.balance - req.amount }
            .withdrawal (-req.amount))) := by
  obtain ⟨rt, amt, rs⟩ := req
  cases hp; cases hr
  simp [admin_complete_atm_request]

/-- `admin_complete_atm_request` rejects a non-pending request. -/
theorem admin_complete_atm_request_not_pending {req : ATMRequest} (a : Account)
    (hp : req.status ≠ .pending) :
    admin_complete_atm_request req a = .error .invalid_state := by
  simp [admin_complete_atm_request, hp]

/-- Unfolding `admin_approve_loan` on a pending loan. -/
theorem admin_approve_loan_pending (d1 d2 : Option ℤ) {l : Loan} (a : Account)
    (hp : l.status = .pending) :
    admin_approve_loan d1 d2 l a =
      .ok ({ l with status := .approved,
                    approved_date1 := some (d1.getD l.preferred_date1),
                    approved_date2 := some (d2.getD l.preferred_date2) },
        add_transaction { a with balance := a.balance + l.amount }
          .loan_disbursement l.amount) := by
  simp [admin_approve_loan, hp]

/-- `admin_approve_loan` rejects a non-pending loan. -/
theorem admin_approve_loan_not_pending (d1 d2 : Option ℤ) {l : Loan} (a : Account)
    (hp : l.status ≠ .pending) :
    admin_approve_loan d1 d2 l a = .error .invalid_state := by
  simp [admin_approve_loan, hp]

/-- The fee tick preserves the ledger invariant of each account. -/
theorem ledgerInvariant_process_account_fee (d : ℤ) {a : Account}
    (h : ledgerInvariant a) : ledgerInvariant (process_account_fee d a) := by
  unfold process_account_fee
  split
  · split
    · exact h
    · split
      · refine ledgerInvariant_check_account_status
          (ledgerInvariant_shift a (-monthly_fee) .fee ?_ rfl h)
        show a.balance - monthly_fee = a.balance + -monthly_fee
        ring
      · exact h
  · exact h

/-- The first-payment block preserves the ledger invariant of the
account component. -/
theorem ledgerInvariant_process_loan_first_payment (d : ℤ) (l : Loan) {a : Account}
    (h : ledgerInvariant a) :
    ledgerInvariant (process_loan_first_payment d l a).2 := by
  unfold process_loan_first_payment
  split
  · exact h
  · split
    · split
      · refine ledgerInvariant_check_account_status
          (ledgerInvariant_shift a (-(l.amount * (1 / 2))) .loan_payment ?_ rfl h)
        show a.balance - l.amount * (1 / 2) = a.balance + -(l.amount * (1 / 2))
        ring
      · exact h
    · exact h

/-- The second-payment block preserves the ledger invariant of the
account component. -/
theorem ledgerInvariant_process_loan_second_payment (d : ℤ) (l : Loan) {a : Account}
    (h : ledgerInvariant a) :
    ledgerInvariant (process_loan_second_payment d l a).2 := by
  unfold process_loan_second_payment
  split
  · exact h
  · split
    · split
      · refine ledgerInvariant_check_account_status
          (ledgerInvariant_shift a (-(l.amount * (10999 / 10000))) .loan_payment ?_ rfl h)
        show a.balance - l.amount * (10999 / 10000) = a.balance + -(l.amount * (10999 / 10000))
        ring
      · exact h
    · exact h

/-- Every balance-mutating operation preserves the ledger invariant. -/
theorem ledgerInvariant_applyAccOp (o : AccOp) {a : Account}
    (h : ledgerInvariant a) : ledgerInvariant (applyAccOp a o) := by
  cases o with
  | complete_request req =>
      simp only [applyAccOp]
      by_cases hp : req.status = ATMRequestStatus.pending
      · cases hr : req.request_type with
        | deposit =>
            rw [admin_complete_atm_request_deposit a hp hr]
            exact ledgerInvariant_check_account_status
              (ledgerInvariant_shift a req.amount .deposit rfl rfl h)
        | withdrawal =>
            rw [admin_complete_atm_request_withdrawal a hp hr]
            refine ledgerInvariant_check_account_status
              (ledgerInvariant_shift a (-req.amount) .withdrawal ?_ rfl h)
            show a.balance - req.amount = a.balance + -req.amount
            ring
      · rw [admin_complete_atm_request_not_pending a hp]
        exact h
  | fee_tick d =>
      simp only [applyAccOp]
      exact ledgerInvariant_process_account_fee d h
  | approve_loan d1 d2 l =>
      simp only [applyAccOp]
      by_cases hp : l.status = LoanStatus.pending
      · rw [admin_approve_loan_pending d1 d2 a hp]
        exact ledgerInvariant_shift a l.amount .loan_disbursement rfl rfl h
      · rw [admin_approve_loan_not_pending d1 d2 a hp]
        exact h
  | loan_tick d l =>
      simp only [applyAccOp]
      unfold process_loan
      split
      · exact ledgerInvariant_process_loan_second_payment d _
          (ledgerInvariant_process_loan_first_payment d l h)
      · exact h

/-- The ledger invariant is preserved along any operation sequence. -/
theorem ledgerInvariant_foldl (ops : List AccOp) {a : Account}
    (h : ledgerInvariant a) : ledgerInvariant (ops.foldl applyAccOp a) := by
  induction ops generalizing a with
  | nil => exact h
  | cons o rest ih => exact ih (ledgerInvariant_applyAccOp o h)

/-- From `runningOk`, every entry's `balance_after` is the prefix sum
of the amounts up to and including that entry. -/
theorem runningOk_get {l : List Transaction} {s : ℚ} (h : runningOk s l = true)
    (i : ℕ) (hi : i < l.length) :
    (l.get ⟨i, hi⟩).balance_after = s + sumAmounts (l.take (i + 1)) := by
  induction l generalizing s i with
  | nil => cases hi
  | cons x rest ih =>
      simp only [runningOk, Bool.and_eq_true, decide_eq_true_eq] at h
      obtain ⟨hx, hrest⟩ := h
      cases i with
      | zero =>
          simpa [sumAmounts] using hx
      | succ n =>
          have hn : n < rest.length := by simpa using hi
          have := ih hrest n hn
          simp only [List.get_cons_succ, List.take_succ_cons] at this ⊢
          rw [this, hx]
          simp [sumAmounts]
          ring

/-! ## Characterizations of the fee tick on one account -/

/-- A non-`active` account is skipped by the fee tick (the query scans
only `active` accounts). -/
theorem process_account_fee_not_active {a : Account} (d : ℤ)
    (hs : a.status ≠ .active) : process_account_fee d a = a := by
  unfold process_account_fee
  simp [hs]

/-- An account with no `last_fee_date` is skipped by the fee tick. -/
theorem process_account_fee_no_date {a : Account} (d : ℤ)
    (hl : a.last_fee_date = none) : process_account_fee d a = a := by
  unfold process_account_fee
  simp [hl]

/-- An account fewer than 30 days past `last_fee_date` is skipped. -/
theorem process_account_fee_recent {a : Account} (d lfd : ℤ)
    (hl : a.last_fee_date = some lfd) (hd : ¬ (30 : ℤ) ≤ d - lfd) :
    process_account_fee d a = a := by
  unfold process_account_fee
  simp [hl, hd]

/-- An `active` account at least 30 days past `last_fee_date` is
charged: balance down by the fee, `last_fee_date` advanced, a `fee`
transaction appended, status reconciled. -/
theorem process_account_fee_charged {a : Account} (d lfd : ℤ)
    (hs : a.status = .active) (hl : a.last_fee_date = some lfd)
    (hd : (30 : ℤ) ≤ d - lfd) :
    process_account_fee d a =
      check_account_status
        (add_transaction
          { a with balance := a.balance - monthly_fee, last_fee_date := some d }
          .fee (-monthly_fee)) := by
  unfold process_account_fee
  simp [hs, hl, hd]

/-- After the monitor, the status of an `active` account is determined
by the sign of its balance. -/
theorem check_account_status_of_active {a : Account} (hs : a.status = .active) :
    (check_account_status a).status
      = (if a.balance < 0 then .on_hold else .active) := by
  unfold check_account_status
  by_cases hb : a.balance < 0
  · simp [hs, hb]
  · simp [hs, hb]

/-- Full characterization of the status written by the monitor. -/
theorem check_account_status_status (a : Account) :
    (check_account_status a).status =
      if a.balance < 0 then (if a.status = .active then .on_hold else a.status)
      else (if a.status = .on_hold then .active else a.status) := by
  unfold check_account_status
  by_cases hb : a.balance < 0
  · by_cases hs : a.status = .active
    · simp [hb, hs]
    · simp [hb, hs, not_le.mpr hb]
  · by_cases ho : a.status = .on_hold
    · simp [hb, ho, not_lt.mp hb]
    · simp [hb, ho]

/-- On a date equal to its `last_fee_date`, the fee tick leaves an
account unchanged (zero elapsed days). -/
theorem process_account_fee_same_date {a : Account} (d : ℤ)
    (hl : a.last_fee_date = some d) : process_account_fee d a = a := by
  by_cases hs : a.status = .active
  · exact process_account_fee_recent d d hl (by omega)
  · exact process_account_fee_not_active d hs

/-! ## Characterizations of the loan-payment tick on one loan -/

/-- `admin_deny_loan` on a pending loan marks it denied. -/
theorem admin_deny_loan_pending {l : Loan} (hp : l.status = .pending) :
    admin_deny_loan l = .ok { l with status := .denied } := by
  simp [admin_deny_loan, hp]

/-- `admin_deny_loan` rejects a non-pending loan. -/
theorem admin_deny_loan_not_pending {l : Loan} (hp : l.status ≠ .pending) :
    admin_deny_loan l = .error .invalid_state := by
  simp [admin_deny_loan, hp]

/-- The first-payment block either leaves loan and account unchanged
or only sets `first_payment_done`. -/
theorem process_loan_first_payment_shape (d : ℤ) (l : Loan) (a : Account) :
    process_loan_first_payment d l a = (l, a) ∨
    (process_loan_first_payment d l a).1 = { l with first_payment_done := true } := by
  unfold process_loan_first_payment
  split
  · exact Or.inl rfl
  · split
    · split
      · exact Or.inr rfl
      · exact Or.inl rfl
    · exact Or.inl rfl

/-- The second-payment block either leaves loan and account unchanged
or (only when `first_payment_done` already holds) sets
`second_payment_done` and completes the loan. -/
theorem process_loan_second_payment_shape (d : ℤ) (l : Loan) (a : Account) :
    process_loan_second_payment d l a = (l, a) ∨
    ((process_loan_second_payment d l a).1
        = { l with second_payment_done := true, status := .completed } ∧
      l.first_payment_done = true) := by
  unfold process_loan_second_payment
  split
  · exact Or.inl rfl
  · split
    · rename_i hcond
      split
      · exact Or.inr ⟨rfl, hcond.2.2⟩
      · exact Or.inl rfl
    · exact Or.inl rfl

/-- The loan component of one tick of `process_loan_payments` takes
one of four shapes: unchanged; first payment only; second payment only
(needs `first_payment_done` beforehand); or both payments chained in
the same tick.  Every changing shape requires status `approved`. -/
theorem process_loan_shape (d : ℤ) (l : Loan) (a : Account) :
    (process_loan d l a).1 = l ∨
    (l.status = .approved ∧
      (process_loan d l a).1 = { l with first_payment_done := true }) ∨
    (l.status = .approved ∧ l.first_payment_done = true ∧
      (process_loan d l a).1
        = { l with second_payment_done := true, status := .completed }) ∨
    (l.status = .approved ∧
      (process_loan d l a).1
        = { l with first_payment_done := true,
                   second_payment_done := true, status := .completed }) := by
  unfold process_loan
  split
  · rename_i hs
    rcases process_loan_second_payment_shape d (process_loan_first_payment d l a).1
        (process_loan_first_payment d l a).2 with e2 | ⟨e2, hf2⟩ <;>
      rcases process_loan_first_payment_shape d l a with e1 | e1 <;>
        simp_all
  · exact Or.inl rfl

/-- The first payment fires when the date has arrived, the flag is
unset and the balance suffices. -/
theorem process_loan_first_payment_fires (d d1 : ℤ) (l : Loan) (a : Account)
    (h1 : l.approved_date1 = some d1) (hd1 : d1 ≤ d)
    (hf : l.first_payment_done = false)
    (hb : l.amount * (1 / 2) ≤ a.balance) :
    process_loan_first_payment d l a =
      ({ l with first_payment_done := true },
       check_account_status
         (add_transaction { a with balance := a.balance - l.amount * (1 / 2) }
           .loan_payment (-(l.amount * (1 / 2))))) := by
  unfold process_loan_first_payment
  simp only [h1]
  rw [if_pos (show d1 ≤ d ∧ l.first_payment_done = false from ⟨hd1, hf⟩), if_pos hb]

/-- The second payment fires when the date has arrived, its flag is
unset, the first-payment flag is set and the balance suffices. -/
theorem process_loan_second_payment_fires (d d2 : ℤ) (l : Loan) (a : Account)
    (h2 : l.approved_date2 = some d2) (hd2 : d2 ≤ d)
    (hsnd : l.second_payment_done = false) (hf : l.first_payment_done = true)
    (hb : l.amount * (10999 / 10000) ≤ a.balance) :
    process_loan_second_payment d l a =
      ({ l with second_payment_done := true, status := .completed },
       check_account_status
         (add_transaction { a with balance := a.balance - l.amount * (10999 / 10000) }
           .loan_payment (-(l.amount * (10999 / 10000))))) := by
  unfold process_loan_second_payment
  simp only [h2]
  rw [if_pos (show d2 ≤ d ∧ l.second_payment_done = false ∧ l.first_payment_done = true from
        ⟨hd2, hsnd, hf⟩),
      if_pos hb]

/-- When an approved loan is first examined with both due dates
already passed, neither payment done and the balance sufficient for
both, ONE tick chains both payments: the second-payment block reads
the `first_payment_done` flag that the first block just set. -/
theorem process_loan_both_fires (d d1 d2 : ℤ) (l : Loan) (a : Account)
    (hs : l.status = .approved)
    (h1 : l.approved_date1 = some d1) (h2 : l.approved_date2 = some d2)
    (hd1 : d1 ≤ d) (hd2 : d2 ≤ d)
    (hf : l.first_payment_done = false) (hsnd : l.second_payment_done = false)
    (hb1 : l.amount * (1 / 2) ≤ a.balance)
    (hb2 : l.amount * (10999 / 10000) ≤ a.balance - l.amount * (1 / 2)) :
    (process_loan d l a).1
      = { l with first_payment_done := true, second_payment_done := true,
                 status := .completed } ∧
    (process_loan d l a).2.balance
      = a.balance - l.amount * (1 / 2) - l.amount * (10999 / 10000) := by
  unfold process_loan
  rw [if_pos hs]
  rw [process_loan_first_payment_fires d d1 l a h1 hd1 hf hb1]
  rw [process_loan_second_payment_fires d d2 { l with first_payment_done := true }
      (check_account_status
        (add_transaction { a with balance := a.balance - l.amount * (1 / 2) }
          .loan_payment (-(l.amount * (1 / 2))))) h2 hd2 hsnd rfl (by simpa using hb2)]
  constructor
  · rfl
  · simp

/-! ## Sample rows for concrete witnesses and counterexamples -/

/-- A sample pending loan row. -/
def loanSample : Loan :=
  { amount := 1000, preferred_date1 := 1, preferred_date2 := 5, status := .pending,
    approved_date1 := none, approved_date2 := none,
    first_payment_done := false, second_payment_done := false }

/-- A sample active account row. -/
def acctActive : Account :=
  { balance := 100, status := .active, last_fee_date := some 0, history := [] }

/-- A sample `on_hold` account row, over 30 days past its fee date. -/
def acctOnHold : Account :=
  { balance := -10, status := .on_hold, last_fee_date := some 0, history := [] }

/-- A sample `closed` account row. -/
def acctClosed : Account :=
  { balance := 50, status := .closed, last_fee_date := some 0, history := [] }

/-- A sample approved loan with both due dates already passed by day
10 and no payment executed yet. -/
def loanBothDue : Loan :=
  { amount := 1000, preferred_date1 := 1, preferred_date2 := 5, status := .approved,
    approved_date1 := some 1, approved_date2 := some 5,
    first_payment_done := false, second_payment_done := false }

/-- A sample account whose balance covers both loan payments. -/
def acctRich : Account :=
  { balance := 2000, status := .active, last_fee_date := some 0, history := [] }

/-! ## Claim C1 -/

/-- C1: starting from a fresh account, after every sequence of
balance-mutating operations (teller-request completion, loan
disbursement at approval, fee charges, loan payments) the balance
equals the sum of all transaction amounts, and each transaction's
`balance_after` equals the running prefix sum of amounts up to and
including that transaction. -/
theorem ledger_invariant_all_ops (ops : List AccOp) (creation_date : ℤ) :
    (ops.foldl applyAccOp (initAccount creation_date)).balance
      = sumAmounts (ops.foldl applyAccOp (initAccount creation_date)).history ∧
    ∀ i (hi : i < (ops.foldl applyAccOp (initAccount creation_date)).history.length),
      ((ops.foldl applyAccOp (initAccount creation_date)).history.get ⟨i, hi⟩).balance_after
        = sumAmounts ((ops.foldl applyAccOp (initAccount creation_date)).history.take (i + 1)) := by
  have h := ledgerInvariant_foldl ops
    (show ledgerInvariant (initAccount creation_date) from ⟨rfl, rfl⟩)
  refine ⟨h.1, fun i hi => ?_⟩
  simpa using runningOk_get h.2 i hi

/-- Witness for C1 on a concrete run: approving the sample loan on a
fresh account leaves one disbursement transaction whose
`balance_after` is the prefix sum. -/
theorem ledger_invariant_all_ops_witness :
    (([AccOp.approve_loan none none loanSample].foldl applyAccOp
        (initAccount 0)).history.get ⟨0, by decide⟩).balance_after
      = sumAmounts (([AccOp.approve_loan none none loanSample].foldl applyAccOp
          (initAccount 0)).history.take 1) :=
  (ledger_invariant_all_ops [AccOp.approve_loan none none loanSample] 0).2 0 (by decide)

/-! ## Claim C2 -/

/-- C2 counterexample: an `on_hold` account (status ≠ closed) that is
40 days past its `last_fee_date` is NOT charged by the fee tick — the
source's query scans only accounts with status `active`, contradicting
the claim that every non-closed account is examined. -/
theorem fee_skips_on_hold_account :
    acctOnHold.status ≠ .closed ∧ (30 : ℤ) ≤ 40 - 0 ∧
    process_account_fee 40 acctOnHold = acctOnHold :=
  ⟨by decide, by decide, process_account_fee_not_active 40 (by decide)⟩

/-- C2 (amended): on each fee tick, only accounts with status `active`
are examined; for every active account at least 30 days past
`last_fee_date`, the fee is deducted, `last_fee_date` advances to the
current date, a `fee` transaction is recorded, and the status is
reconciled. -/
theorem fee_charges_active_account (d lfd : ℤ) (a : Account)
    (hs : a.status = .active) (hl : a.last_fee_date = some lfd)
    (hd : (30 : ℤ) ≤ d - lfd) :
    (process_account_fee d a).balance = a.balance - monthly_fee ∧
    (process_account_fee d a).last_fee_date = some d ∧
    (process_account_fee d a).history
      = a.history ++ [⟨.fee, -monthly_fee, a.balance - monthly_fee⟩] ∧
    (process_account_fee d a).status
      = (if a.balance - monthly_fee < 0 then .on_hold else .active) := by
  rw [process_account_fee_charged d lfd hs hl hd]
  refine ⟨by simp, by simp, by simp, ?_⟩
  rw [check_account_status_of_active (by simp [hs])]
  simp

/-- Witness for C2 (amended) on the sample active account. -/
theorem fee_charges_active_account_witness :
    (process_account_fee 40 acctActive).balance = 95 ∧
    (process_account_fee 40 acctActive).last_fee_date = some 40 := by
  have h := fee_charges_active_account 40 0 acctActive rfl rfl (by decide)
  refine ⟨?_, h.2.1⟩
  rw [h.1]
  show (100 : ℚ) - 5 = 95
  norm_num

/-! ## Claim C3 -/

/-- C3 counterexample: an approved loan of 1000 with both due dates
(1 and 5) already passed on day 10, neither payment done and balance
2000 sufficient for both: the single tick sets `second_payment_done`
and completes the loan — the second payment does NOT wait for a later
tick, because the second-payment block reads the `first_payment_done`
flag just set mid-tick. -/
theorem second_payment_fires_same_tick :
    loanBothDue.status = .approved ∧
    loanBothDue.approved_date1 = some 1 ∧ loanBothDue.approved_date2 = some 5 ∧
    loanBothDue.first_payment_done = false ∧ loanBothDue.second_payment_done = false ∧
    loanBothDue.amount * (1 / 2) + loanBothDue.amount * (10999 / 10000)
      ≤ acctRich.balance ∧
    (process_loan 10 loanBothDue acctRich).1.second_payment_done = true ∧
    (process_loan 10 loanBothDue acctRich).1.status = .completed := by
  have h := process_loan_both_fires 10 1 5 loanBothDue acctRich rfl rfl rfl
      (by norm_num) (by norm_num) rfl rfl
      (by show (1000 : ℚ) * (1 / 2) ≤ 2000; norm_num)
      (by show (1000 : ℚ) * (10999 / 10000) ≤ 2000 - 1000 * (1 / 2); norm_num)
  refine ⟨rfl, rfl, rfl, rfl, rfl, ?_, ?_, ?_⟩
  · show (1000 : ℚ) * (1 / 2) + 1000 * (10999 / 10000) ≤ 2000
    norm_num
  · rw [h.1]
  · rw [h.1]

/-- C3 (amended): for an approved loan examined on a date on or after
both approved dates, with neither payment done, a non-negative amount
and balance sufficient for both payments, the first payment executes
AND the second payment also executes in the very same tick, completing
the loan and deducting both amounts. -/
theorem both_payments_same_tick (d d1 d2 : ℤ) (l : Loan) (a : Account)
    (hs : l.status = .approved)
    (h1 : l.approved_date1 = some d1) (h2 : l.approved_date2 = some d2)
    (hd1 : d1 ≤ d) (hd2 : d2 ≤ d)
    (hf : l.first_payment_done = false) (hsnd : l.second_payment_done = false)
    (hamt : 0 ≤ l.amount)
    (hbal : l.amount * (1 / 2) + l.amount * (10999 / 10000) ≤ a.balance) :
    (process_loan d l a).1.first_payment_done = true ∧
    (process_loan d l a).1.second_payment_done = true ∧
    (process_loan d l a).1.status = .completed ∧
    (process_loan d l a).2.balance
      = a.balance - l.amount * (1 / 2) - l.amount * (10999 / 10000) := by
  have hpos : 0 ≤ l.amount * (10999 / 10000) := mul_nonneg hamt (by norm_num)
  have hhalf : 0 ≤ l.amount * (1 / 2) := mul_nonneg hamt (by norm_num)
  have hb1 : l.amount * (1 / 2) ≤ a.balance := by linarith
  have hb2 : l.amount * (10999 / 10000) ≤ a.balance - l.amount * (1 / 2) := by linarith
  have h := process_loan_both_fires d d1 d2 l a hs h1 h2 hd1 hd2 hf hsnd hb1 hb2
  exact ⟨by rw [h.1], by rw [h.1], by rw [h.1], h.2⟩

/-- Witness for C3 (amended) on the sample loan and account. -/
theorem both_payments_same_tick_witness :
    (process_loan 10 loanBothDue acctRich).1.first_payment_done = true ∧
    (process_loan 10 loanBothDue acctRich).2.balance
      = acctRich.balance - loanBothDue.amount * (1 / 2)
        - loanBothDue.amount * (10999 / 10000) := by
  have h := both_payments_same_tick 10 1 5 loanBothDue acctRich rfl rfl rfl
      (by norm_num) (by norm_num) rfl rfl
      (by show (0 : ℚ) ≤ 1000; norm_num)
      (by show (1000 : ℚ) * (1 / 2) + 1000 * (10999 / 10000) ≤ 2000; norm_num)
  exact ⟨h.1, h.2.2.2⟩

/-! ## Claim C4 -/

/-- The loan-mutating operations: the admin approve/deny handlers (a
failing handler leaves the loan unchanged) and one pass of the
loan-payment tick over this loan.  `bal` is the owning account's
balance when the tick reads it; the loan result of
`admin_approve_loan` does not depend on the account, so a fixed
account row is supplied there. -/
inductive LoanOp
  | approve (d1 d2 : Option ℤ)
  | deny
  | tick (current_date : ℤ) (bal : ℚ)

/-- The account row a scheduler tick observes, carrying the balance. -/
def tickAccount (bal : ℚ) : Account :=
  { balance := bal, status := .active, last_fee_date := none, history := [] }

/-- The loan-state effect of one `LoanOp`. -/
def applyLoanOp (l : Loan) : LoanOp → Loan
  | .approve d1 d2 =>
      match admin_approve_loan d1 d2 l (tickAccount 0) with
      | .ok la => la.1
      | .error _ => l
  | .deny =>
      match admin_deny_loan l with
      | .ok l' => l'
      | .error _ => l
  | .tick d bal => (process_loan d l (tickAccount bal)).1

/-- Loan states reachable in the system: created by `apply_for_loan`
and then mutated by any sequence of loan operations. -/
inductive ReachableLoan : Loan → Prop
  | init (a : Account) (amount : ℚ) (p1 p2 : ℤ) (loan : Loan)
      (h : apply_for_loan a amount p1 p2 = .ok loan) : ReachableLoan loan
  | step (l : Loan) (o : LoanOp) (h : ReachableLoan l) : ReachableLoan (applyLoanOp l o)

/-- On every reachable loan, `second_payment_done` implies
`first_payment_done`. -/
theorem reachable_second_imp_first {l : Loan} (h : ReachableLoan l) :
    l.second_payment_done = true → l.first_payment_done = true := by
  induction h with
  | init a amount p1 p2 loan h =>
      unfold apply_for_loan at h
      split at h
      · cases h
      · cases h
        simp
  | step l o h ih =>
      cases o with
      | approve d1 d2 =>
          by_cases hp : l.status = .pending
          · simp only [applyLoanOp]
            rw [admin_approve_loan_pending d1 d2 (tickAccount 0) hp]
            simpa using ih
          · simp only [applyLoanOp]
            rw [admin_approve_loan_not_pending d1 d2 (tickAccount 0) hp]
            exact ih
      | deny =>
          by_cases hp : l.status = .pending
          · simp only [applyLoanOp]
            rw [admin_deny_loan_pending hp]
            simpa using ih
          · simp only [applyLoanOp]
            rw [admin_deny_loan_not_pending hp]
            exact ih
      | tick d bal =>
          simp only [applyLoanOp]
          rcases process_loan_shape d l (tickAccount bal) with e | ⟨_, e⟩ | ⟨_, hf, e⟩ | ⟨_, e⟩
          · rw [e]; exact ih
          · rw [e]; simp
          · rw [e]; simpa using hf
          · rw [e]; simp

/-- C4: on every reachable loan state and every operation,
`second_payment_done` implies `first_payment_done` afterwards, the
status either stays or moves along pending→approved, pending→denied or
approved→completed (the last only with both payment flags set), and a
denied or completed loan is never changed again. -/
theorem loan_state_machine_inv (l : Loan) (h : ReachableLoan l) (o : LoanOp) :
    ((applyLoanOp l o).second_payment_done = true →
      (applyLoanOp l o).first_payment_done = true) ∧
    ((applyLoanOp l o).status = l.status ∨
      (l.status = .pending ∧ (applyLoanOp l o).status = .approved) ∨
      (l.status = .pending ∧ (applyLoanOp l o).status = .denied) ∨
      (l.status = .approved ∧ (applyLoanOp l o).status = .completed ∧
        (applyLoanOp l o).first_payment_done = true ∧
        (applyLoanOp l o).second_payment_done = true)) ∧
    (l.status = .denied → applyLoanOp l o = l) ∧
    (l.status = .completed → applyLoanOp l o = l) := by
  have hterm : ∀ s, l.status = s → s ≠ .pending → s ≠ .approved → applyLoanOp l o = l := by
    intro s hs hnp hna
    cases o with
    | approve d1 d2 =>
        simp only [applyLoanOp]
        rw [admin_approve_loan_not_pending d1 d2 (tickAccount 0) (hs ▸ hnp)]
    | deny =>
        simp only [applyLoanOp]
        rw [admin_deny_loan_not_pending (hs ▸ hnp)]
    | tick d bal =>
        simp only [applyLoanOp]
        unfold process_loan
        rw [if_neg (hs ▸ hna)]
  refine ⟨reachable_second_imp_first (ReachableLoan.step l o h), ?_, ?_, ?_⟩
  · cases o with
    | approve d1 d2 =>
        by_cases hp : l.status = .pending
        · simp only [applyLoanOp]
          rw [admin_approve_loan_pending d1 d2 (tickAccount 0) hp]
          exact Or.inr (Or.inl ⟨hp, rfl⟩)
        · simp only [applyLoanOp]
          rw [admin_approve_loan_not_pending d1 d2 (tickAccount 0) hp]
          exact Or.inl rfl
    | deny =>
        by_cases hp : l.status = .pending
        · simp only [applyLoanOp]
          rw [admin_deny_loan_pending hp]
          exact Or.inr (Or.inr (Or.inl ⟨hp, rfl⟩))
        · simp only [applyLoanOp]
          rw [admin_deny_loan_not_pending hp]
          exact Or.inl rfl
    | tick d bal =>
        simp only [applyLoanOp]
        rcases process_loan_shape d l (tickAccount bal) with e | ⟨hs, e⟩ | ⟨hs, hf, e⟩ | ⟨hs, e⟩
        · rw [e]; exact Or.inl rfl
        · rw [e]; exact Or.inl rfl
        · rw [e]; exact Or.inr (Or.inr (Or.inr ⟨hs, rfl, by simpa using hf, rfl⟩))
        · rw [e]; exact Or.inr (Or.inr (Or.inr ⟨hs, rfl, rfl, rfl⟩))
  · intro hden
    exact hterm .denied hden (by decide) (by decide)
  · intro hcom
    exact hterm .completed hcom (by decide) (by decide)

/-- Witness for C4: denying the freshly applied sample loan. -/
theorem loan_state_machine_inv_witness :
    ((applyLoanOp loanSample .deny).second_payment_done = true →
      (applyLoanOp loanSample .deny).first_payment_done = true) ∧
    ((applyLoanOp loanSample .deny).status = loanSample.status ∨
      (loanSample.status = .pending ∧ (applyLoanOp loanSample .deny).status = .approved) ∨
      (loanSample.status = .pending ∧ (applyLoanOp loanSample .deny).status = .denied) ∨
      (loanSample.status = .approved ∧
        (applyLoanOp loanSample .deny).status = .completed ∧
        (applyLoanOp loanSample .deny).first_payment_done = true ∧
        (applyLoanOp loanSample .deny).second_payment_done = true)) := by
  have h := loan_state_machine_inv loanSample
      (ReachableLoan.init acctActive 1000 1 5 loanSample rfl) .deny
  exact ⟨h.1, h.2.1⟩

/-! ## Claim C5 -/

/-- C5: the fee tick is idempotent in immediate succession: a second
run on the same date changes neither balance, status, `last_fee_date`
nor history, and a single run appends at most one transaction — at
most one fee is charged. -/
theorem fee_tick_idempotent (d : ℤ) (a : Account) :
    process_account_fee d (process_account_fee d a) = process_account_fee d a ∧
    (process_account_fee d a).history.length ≤ a.history.length + 1 := by
  constructor
  · by_cases hs : a.status = .active
    · cases hl : a.last_fee_date with
      | none =>
          rw [process_account_fee_no_date d hl]
          exact process_account_fee_no_date d hl
      | some lfd =>
          by_cases hd : (30 : ℤ) ≤ d - lfd
          · refine process_account_fee_same_date d ?_
            rw [process_account_fee_charged d lfd hs hl hd]
            simp
          · rw [process_account_fee_recent d lfd hl hd]
            exact process_account_fee_recent d lfd hl hd
    · rw [process_account_fee_not_active d hs]
      exact process_account_fee_not_active d hs
  · by_cases hs : a.status = .active
    · cases hl : a.last_fee_date with
      | none =>
          rw [process_account_fee_no_date d hl]
          exact Nat.le_succ _
      | some lfd =>
          by_cases hd : (30 : ℤ) ≤ d - lfd
          · rw [process_account_fee_charged d lfd hs hl hd]
            simp
          · rw [process_account_fee_recent d lfd hl hd]
            exact Nat.le_succ _
    · rw [process_account_fee_not_active d hs]
      exact Nat.le_succ _

/-! ## Claim C6 -/

/-- C6: after the status monitor runs, balance and status agree:
negative balance implies `on_hold` or `closed`; non-negative balance
with a non-`closed` status implies `active`; the monitor preserves the
balance and never changes a `closed` account. -/
theorem status_monitor_reconciles (a : Account) :
    (check_account_status a).balance = a.balance ∧
    ((check_account_status a).balance < 0 →
      (check_account_status a).status = .on_hold ∨
      (check_account_status a).status = .closed) ∧
    (0 ≤ (check_account_status a).balance →
      (check_account_status a).status ≠ .closed →
      (check_account_status a).status = .active) ∧
    (a.status = .closed → check_account_status a = a) := by
  refine ⟨check_account_status_balance a, ?_, ?_, ?_⟩
  · intro hneg
    rw [check_account_status_balance] at hneg
    rw [check_account_status_status]
    rcases hst : a.status <;> simp [hneg, hst]
  · intro hpos hnc
    rw [check_account_status_balance] at hpos
    rw [check_account_status_status] at hnc ⊢
    rcases hst : a.status <;> simp_all [not_lt.mpr hpos]
  · intro hcl
    unfold check_account_status
    simp [hcl]

/-! ## Claim C7 -/

/-- C7 counterexample: a `closed` account CAN create a deposit
request — `atm_deposit` performs no account-status check, so not
every mutating operation is rejected on a closed account. -/
theorem closed_account_deposit_accepted :
    acctClosed.status = .closed ∧
    atm_deposit acctClosed 10
      = .ok { request_type := .deposit, amount := 10, status := .pending } := by
  refine ⟨rfl, ?_⟩
  unfold atm_deposit
  rw [if_neg (by norm_num)]

/-- C7 (amended): a `closed` account has withdrawals and new loan
applications rejected with a typed `AccountNotActive` error, while a
deposit request with a positive amount is accepted (the deposit path
checks no status); balance and history reads are unaffected. -/
theorem closed_account_rejections (a : Account) (amt : ℚ) (p1 p2 : ℤ)
    (hc : a.status = .closed) :
    atm_withdraw a amt = .error .account_not_active ∧
    apply_for_loan a amt p1 p2 = .error .account_not_active ∧
    (0 < amt → atm_deposit a amt
        = .ok { request_type := .deposit, amount := amt, status := .pending }) := by
  refine ⟨?_, ?_, ?_⟩
  · unfold atm_withdraw
    rw [if_pos (by simp [hc])]
  · unfold apply_for_loan
    rw [if_pos (by simp [hc])]
  · intro hpos
    unfold atm_deposit
    rw [if_neg (not_le.mpr hpos)]

/-- Witness for C7 (amended) on the sample closed account. -/
theorem closed_account_rejections_witness :
    atm_withdraw acctClosed 10 = .error .account_not_active ∧
    atm_deposit acctClosed 10
      = .ok { request_type := .deposit, amount := 10, status := .pending } :=
  ⟨(closed_account_rejections acctClosed 10 1 2 rfl).1,
   (closed_account_rejections acctClosed 10 1 2 rfl).2.2 (by norm_num)⟩

/-! ## Claim C8 -/

/-- A sample account whose processing raises a transient store
error during the fee tick. -/
def acctErr : Account :=
  { balance := 0, status := .active, last_fee_date := some 0, history := [] }

/-- C8 counterexample: with the failing account first in the tick's
list, the eligible account behind it is left unchanged, although the
same tick run without the failing account would charge it — the
`try/except` wraps the whole loop, so one error aborts the rest of the
tick. -/
theorem fee_error_aborts_tick_cex :
    process_monthly_fees 40 [(acctErr, true), (acctActive, false)]
      = [acctErr, acctActive] ∧
    process_monthly_fees 40 [(acctActive, false)]
      = [process_account_fee 40 acctActive] ∧
    (process_account_fee 40 acctActive).balance ≠ acctActive.balance := by
  refine ⟨rfl, rfl, ?_⟩
  rw [process_account_fee_charged 40 0 rfl rfl (by norm_num)]
  simp only [check_account_status_balance, add_transaction_balance]
  show (100 : ℚ) - 5 ≠ 100
  norm_num

/-- C8 (amended): an error while processing one account aborts the
remaining accounts of that fee tick: the accounts before the failing
one are processed normally, and the failing account together with
every account after it is left untouched until the next tick. -/
theorem fee_error_aborts_remaining (d : ℤ) (pre : List (Account × Bool))
    (a : Account) (post : List (Account × Bool))
    (hpre : ∀ x ∈ pre, x.2 = false) :
    process_monthly_fees d (pre ++ (a, true) :: post)
      = pre.map (fun x => process_account_fee d x.1) ++ a :: post.map Prod.fst := by
  induction pre with
  | nil => simp [process_monthly_fees]
  | cons x rest ih =>
      obtain ⟨xa, xb⟩ := x
      have hx : xb = false := hpre (xa, xb) (List.mem_cons_self _ _)
      rw [List.cons_append]
      rw [show process_monthly_fees d ((xa, xb) :: (rest ++ (a, true) :: post))
            = if xb then xa :: (rest ++ (a, true) :: post).map Prod.fst
              else process_account_fee d xa
                :: process_monthly_fees d (rest ++ (a, true) :: post) from rfl]
      rw [hx]
      simp only [if_false, Bool.false_eq_true]
      rw [ih (fun y hy => hpre y (List.mem_cons_of_mem _ hy))]
      simp

/-- Witness for C8 (amended): failing account in the middle of the
list: the first is charged, the failing one and the last are not. -/
theorem fee_error_aborts_remaining_witness :
    process_monthly_fees 40 [(acctActive, false), (acctErr, true), (acctOnHold, false)]
      = [process_account_fee 40 acctActive, acctErr, acctOnHold] := by
  have h := fee_error_aborts_remaining 40 [(acctActive, false)] acctErr
      [(acctOnHold, false)] (by simp)
  simpa using h

/-! ## Claim C9 -/

/-- A sample pending withdrawal request exceeding the closed sample
account's balance. -/
def reqWithdraw100 : ATMRequest :=
  { request_type := .withdrawal, amount := 100, status := .pending }

/-- C9 counterexample: completing a pending withdrawal of 100 against
the CLOSED sample account (balance 50) succeeds and drives the balance
to −50, but the status monitor leaves the account `closed` — it does
not set it to `on_hold` as the claim states for every request. -/
theorem closed_withdrawal_completion_cex :
    acctClosed.balance < reqWithdraw100.amount ∧
    ∃ a', admin_complete_atm_request reqWithdraw100 acctClosed
        = .ok ({ reqWithdraw100 with status := .completed }, a') ∧
      a'.balance = -50 ∧ a'.status = .closed ∧ a'.status ≠ .on_hold := by
  refine ⟨by show (50 : ℚ) < 100; norm_num,
    _, admin_complete_atm_request_withdrawal acctClosed rfl rfl, ?_, ?_, ?_⟩
  · simp only [check_account_status_balance, add_transaction_balance]
    show (50 : ℚ) - 100 = -50
    norm_num
  · rw [check_account_status_status]
    simp [acctClosed]
  · rw [check_account_status_status]
    simp [acctClosed]

/-- C9 (amended): completing a pending withdrawal request deducts the
full amount with no sufficiency re-check: whenever the amount exceeds
the balance, completion succeeds and leaves the balance negative; the
status monitor then puts a non-`closed` account `on_hold`, while a
`closed` account stays `closed`. -/
theorem withdrawal_completion_no_recheck (req : ATMRequest) (a : Account)
    (hp : req.status = .pending) (hr : req.request_type = .withdrawal)
    (hin : a.balance < req.amount) :
    ∃ a', admin_complete_atm_request req a
        = .ok ({ req with status := .completed }, a') ∧
      a'.balance = a.balance - req.amount ∧ a'.balance < 0 ∧
      (a.status ≠ .closed → a'.status = .on_hold) ∧
      (a.status = .closed → a'.status = .closed) := by
  refine ⟨_, admin_complete_atm_request_withdrawal a hp hr, ?_, ?_, ?_, ?_⟩
  · simp
  · simp only [check_account_status_balance, add_transaction_balance]
    linarith
  · intro hnc
    have hneg : (add_transaction { a with balance := a.balance - req.amount }
        .withdrawal (-req.amount)).balance < 0 := by
      simp only [add_transaction_balance]
      show a.balance - req.amount < 0
      linarith
    rw [check_account_status_status, if_pos hneg]
    rcases hst : a.status with _ | _ | _
    · simp [hst]
    · simp [hst]
    · exact absurd hst hnc
  · intro hcl
    rw [check_account_status_status]
    simp [hcl]

/-- Witness for C9 (amended): a pending withdrawal of 100 against the
active sample account with balance 100 would not apply; use an
overdrawing request against a fresh active account instead. -/
theorem withdrawal_completion_no_recheck_witness :
    ∃ a', admin_complete_atm_request reqWithdraw100
          { balance := 30, status := .active, last_fee_date := some 0, history := [] }
        = .ok ({ reqWithdraw100 with status := .completed }, a') ∧
      a'.balance = (30 : ℚ) - 100 ∧ a'.status = .on_hold := by
  obtain ⟨a', he, hb, _, hs, _⟩ := withdrawal_completion_no_recheck reqWithdraw100
      { balance := 30, status := .active, last_fee_date := some 0, history := [] }
      rfl rfl (by show (30 : ℚ) < 100; norm_num)
  exact ⟨a', he, hb, hs (by decide)⟩

/-- Witness for C6: the monitor moves the sample overdrawn active
account to `on_hold`. -/
theorem status_monitor_reconciles_witness :
    (check_account_status
        { balance := -5, status := .active, last_fee_date := some 0,
          history := [] }).status = .on_hold ∨
    (check_account_status
        { balance := -5, status := .active, last_fee_date := some 0,
          history := [] }).status = .closed :=
  (status_monitor_reconciles
      { balance := -5, status := .active, last_fee_date := some 0,
        history := [] }).2.1 (by decide)

end BankOfMilo
